import Mathlib

/-!
Verification of the dataset-normalization script `scripts/download-hf-datasets.py`
(EmbedEval repository).  The script's five dataset adapters (built-in sample,
MTEB STS-17, SQuAD sample, Quora sample, NFCorpus sample) are embedded below as
pure Lean functions over explicit record lists; file/network I/O is modelled by
explicit success/failure parameters, and Python exceptions by `Except`.
Relevance scores (Python floats) are modelled as rationals.
-/

namespace EmbedEval

/-! ## Decimal representation infrastructure

`Nat.repr` (used by the script's f-strings to synthesize IDs) is injective.
We characterise `Nat.toDigitsCore` by a structural digit-list function and
build a left inverse.
-/

/-- Big-endian decimal digit list of `n`, as produced by `Nat.toDigits 10`. -/
def sDigits (n : Nat) : List Char :=
  if _h : n < 10 then [Nat.digitChar n]
  else sDigits (n / 10) ++ [Nat.digitChar (n % 10)]
decreasing_by exact Nat.div_lt_self (by omega) (by omega)

theorem sDigits_of_lt {n : Nat} (h : n < 10) : sDigits n = [Nat.digitChar n] := by
  rw [sDigits]
  simp [h]

theorem sDigits_of_ge {n : Nat} (h : ¬ n < 10) :
    sDigits n = sDigits (n / 10) ++ [Nat.digitChar (n % 10)] := by
  rw [sDigits]
  simp [h]

theorem toDigitsCore_eq_sDigits :
    ∀ (fuel n : Nat) (ds : List Char), n < 10 ^ fuel → 1 ≤ fuel →
      Nat.toDigitsCore 10 fuel n ds = sDigits n ++ ds := by
  intro fuel
  induction fuel with
  | zero => intro n ds _ hf; omega
  | succ f ih =>
    intro n ds hlt _
    show (if n / 10 = 0 then Nat.digitChar (n % 10) :: ds
          else Nat.toDigitsCore 10 f (n / 10) (Nat.digitChar (n % 10) :: ds)) = _
    by_cases h0 : n / 10 = 0
    · have hn : n < 10 := by omega
      rw [if_pos h0, sDigits_of_lt hn, Nat.mod_eq_of_lt hn]
      rfl
    · have hn : ¬ n < 10 := by omega
      have hf1 : 1 ≤ f := by
        by_contra hf0
        have : f = 0 := by omega
        subst this
        simp [pow_succ, pow_zero] at hlt
        omega
      have hdiv : n / 10 < 10 ^ f := by
        rw [Nat.div_lt_iff_lt_mul (by omega : 0 < 10)]
        calc n < 10 ^ (f + 1) := hlt
        _ = 10 ^ f * 10 := by rw [pow_succ]
      rw [if_neg h0, ih (n / 10) (Nat.digitChar (n % 10) :: ds) hdiv hf1,
        sDigits_of_ge hn]
      simp

theorem repr_eq_sDigits (n : Nat) : Nat.repr n = (sDigits n).asString := by
  have hpow : n < 10 ^ (n + 1) := by
    calc n < 10 ^ n := Nat.lt_pow_self (by omega) n
    _ ≤ 10 ^ (n + 1) := Nat.pow_le_pow_right (by omega) (by omega)
  show (Nat.toDigitsCore 10 (n + 1) n []).asString = _
  rw [toDigitsCore_eq_sDigits (n + 1) n [] hpow (by omega)]
  simp

/-- Numeric value of a decimal digit character. -/
def chVal (c : Char) : Nat := c.toNat - 48

theorem chVal_digitChar {d : Nat} (h : d < 10) : chVal (Nat.digitChar d) = d := by
  interval_cases d <;> decide

/-- Decimal value of a big-endian digit character list. -/
def charsVal (l : List Char) : Nat := l.foldl (fun a c => 10 * a + chVal c) 0

theorem foldl_sDigits (n : Nat) :
    ∀ a : Nat, (sDigits n).foldl (fun a c => 10 * a + chVal c) a
      = a * 10 ^ (sDigits n).length + n := by
  induction n using Nat.strong_induction_on with
  | _ n ih =>
    intro a
    by_cases h : n < 10
    · rw [sDigits_of_lt h]
      simp [chVal_digitChar h]
      ring
    · rw [sDigits_of_ge h]
      have hrec := ih (n / 10) (Nat.div_lt_self (by omega) (by omega))
      rw [List.foldl_append, hrec a]
      simp [chVal_digitChar (Nat.mod_lt n (by omega))]
      have heq : 10 * a * 10 ^ (sDigits (n / 10)).length
          = a * 10 ^ ((sDigits (n / 10)).length + 1) := by ring
      rw [Nat.mul_add, ← Nat.mul_assoc, heq]
      omega

theorem charsVal_sDigits (n : Nat) : charsVal (sDigits n) = n := by
  have := foldl_sDigits n 0
  simpa [charsVal] using this

theorem sDigits_injective : Function.Injective sDigits := by
  intro m n h
  have := charsVal_sDigits m
  rw [h, charsVal_sDigits] at this
  omega

theorem repr_injective : Function.Injective Nat.repr := by
  intro m n h
  rw [repr_eq_sDigits, repr_eq_sDigits] at h
  apply sDigits_injective
  have : (sDigits m).asString.data = (sDigits n).asString.data := by rw [h]
  simpa [List.asString] using this

/-- An ID of the form `p ++ Nat.repr n` determines `n`. -/
theorem mkId_inj (p : String) {m n : Nat} (h : p ++ Nat.repr m = p ++ Nat.repr n) :
    m = n := by
  apply repr_injective
  have hd : (p ++ Nat.repr m).data = (p ++ Nat.repr n).data := by rw [h]
  simp only [String.data_append] at hd
  have := List.append_cancel_left hd
  exact String.ext this

/-! ## Data model

`Query` and `Document` mirror the JSON objects the script writes to
`queries.jsonl` / `corpus.jsonl`.  Python float scores are modelled as `ℚ`;
heterogeneous metadata values as `MetaVal`.
-/

inductive MetaVal where
  | str (s : String)
  | num (q : ℚ)
  | bool (b : Bool)
deriving DecidableEq, Repr

structure Query where
  id : String
  query : String
  relevantDocs : List String
  relevanceScores : List ℚ
  tags : List String
deriving DecidableEq, Repr

structure Document where
  id : String
  content : String
  metadata : List (String × MetaVal)
deriving DecidableEq, Repr

/-! ## Built-in sample dataset (`create_sample_dataset`, lines 215-294) -/

def sample_queries : List Query :=
  [ { id := "q1", query := "What is machine learning?",
      relevantDocs := ["d1", "d2"], relevanceScores := [1, 0.8],
      tags := ["technical"] },
    { id := "q2", query := "How to bake sourdough bread?",
      relevantDocs := ["d3"], relevanceScores := [1], tags := ["cooking"] },
    { id := "q3", query := "Best Python web frameworks",
      relevantDocs := ["d4", "d5"], relevanceScores := [1, 0.9],
      tags := ["programming"] },
    { id := "q4", query := "Climate change effects",
      relevantDocs := ["d6"], relevanceScores := [1], tags := ["science"] },
    { id := "q5", query := "Introduction to quantum computing",
      relevantDocs := ["d7", "d8"], relevanceScores := [1, 0.7],
      tags := ["technical"] } ]

def sample_corpus : List Document :=
  [ { id := "d1",
      content := "Machine learning is a subset of artificial intelligence that enables computers to learn from data without explicit programming.",
      metadata := [("category", MetaVal.str "ai")] },
    { id := "d2",
      content := "Deep learning uses neural networks with multiple layers to model complex patterns in data.",
      metadata := [("category", MetaVal.str "ai")] },
    { id := "d3",
      content := "Sourdough bread requires a starter culture of wild yeast and bacteria to ferment the dough.",
      metadata := [("category", MetaVal.str "cooking")] },
    { id := "d4",
      content := "Django is a high-level Python web framework that encourages rapid development and clean design.",
      metadata := [("category", MetaVal.str "programming")] },
    { id := "d5",
      content := "Flask is a lightweight Python web framework that is easy to get started with.",
      metadata := [("category", MetaVal.str "programming")] },
    { id := "d6",
      content := "Climate change refers to long-term shifts in global temperatures and weather patterns.",
      metadata := [("category", MetaVal.str "science")] },
    { id := "d7",
      content := "Quantum computing uses quantum bits or qubits to perform calculations exponentially faster.",
      metadata := [("category", MetaVal.str "physics")] },
    { id := "d8",
      content := "Quantum mechanics describes the behavior of matter and energy at the atomic scale.",
      metadata := [("category", MetaVal.str "physics")] } ]

/-! ## STS-17 adapter core (`download_mteb_sts17`, loop at lines 41-58) -/

structure STSItem where
  sentence1 : String
  sentence2 : String
  score : ℚ
deriving DecidableEq, Repr

/-- `item["score"] / 5.0` — normalize 0-5 to 0-1 (line 49). -/
def stsScoreNormalizer (x : ℚ) : ℚ := x / 5

/-- The query appended for record number `i` (lines 45-51). -/
def stsQuery (i : Nat) (item : STSItem) : Query :=
  { id := "sts17-en-en-" ++ Nat.repr i
    query := item.sentence1
    relevantDocs := ["sts17-doc-" ++ Nat.repr i]
    relevanceScores := [stsScoreNormalizer item.score]
    tags := ["sts", "en-en"] }

/-- The document appended for record number `i` (lines 54-58). -/
def stsDoc (i : Nat) (item : STSItem) : Document :=
  { id := "sts17-doc-" ++ Nat.repr i
    content := item.sentence2
    metadata := [("score", MetaVal.num item.score)] }

def sts17Loop : Nat → List STSItem → List Query × List Document
  | _, [] => ([], [])
  | i, item :: rest =>
    let res := sts17Loop (i + 1) rest
    (stsQuery i item :: res.1, stsDoc i item :: res.2)

def sts17_transform (items : List STSItem) : List Query × List Document :=
  sts17Loop 0 items

/-! ## SQuAD adapter core (`download_squad_sample`, loop at lines 80-101)

`seen_contexts` (a Python dict, insertion-ordered) is modelled as an
association list; `len(seen_contexts)` is its length.
-/

structure SquadItem where
  context : String
  question : String
  title : String
deriving DecidableEq, Repr

/-- The query appended for record number `i` (lines 95-101). -/
def squadQuery (i : Nat) (docId : String) (item : SquadItem) : Query :=
  { id := "squad-q-" ++ Nat.repr i, query := item.question,
    relevantDocs := [docId], relevanceScores := [1], tags := ["qa", "squad"] }

/-- The document appended on first sight of a context (lines 85-91). -/
def squadDoc (seenLen : Nat) (item : SquadItem) : Document :=
  { id := "squad-doc-" ++ Nat.repr seenLen, content := item.context,
    metadata := [("title", MetaVal.str item.title)] }

def squadLoop : Nat → List (String × String) → List SquadItem → List Query × List Document
  | _, _, [] => ([], [])
  | i, seen, item :: rest =>
    match seen.lookup item.context with
    | some docId =>
      let res := squadLoop (i + 1) seen rest
      (squadQuery i docId item :: res.1, res.2)
    | none =>
      let docId := "squad-doc-" ++ Nat.repr seen.length
      let res := squadLoop (i + 1) (seen ++ [(item.context, docId)]) rest
      (squadQuery i docId item :: res.1, squadDoc seen.length item :: res.2)

def squad_transform (items : List SquadItem) : List Query × List Document :=
  squadLoop 0 [] items

/-- The deduplication table `seen_contexts` after consuming the given records. -/
def squadSeenAfter (seen : List (String × String)) : List SquadItem → List (String × String)
  | [] => seen
  | item :: rest =>
    match seen.lookup item.context with
    | some _ => squadSeenAfter seen rest
    | none =>
      squadSeenAfter (seen ++ [(item.context, "squad-doc-" ++ Nat.repr seen.length)]) rest

/-! ## Quora adapter core (`download_quora_sample`, loop at lines 123-150) -/

structure QuoraItem where
  q1 : String
  q2 : String
  is_duplicate : Bool
deriving DecidableEq, Repr

/-- One step of the inner `for j, q in enumerate([q1, q2])` loop (lines 129-137). -/
def quoraInsert (seen : List (String × String)) (q : String) :
    List (String × String) × List Document :=
  match seen.lookup q with
  | some _ => (seen, [])
  | none =>
    let qId := "quora-q-" ++ Nat.repr seen.length
    (seen ++ [(q, qId)], [{ id := qId, content := q, metadata := [] }])

/-- The query appended for a duplicate pair at position `i` (lines 144-150). -/
def quoraQuery (i : Nat) (q2Id : String) (item : QuoraItem) : Query :=
  { id := "quora-pair-" ++ Nat.repr i, query := item.q1,
    relevantDocs := [q2Id], relevanceScores := [1], tags := ["duplicate", "quora"] }

def quoraLoop : Nat → List (String × String) → List QuoraItem → List Query × List Document
  | _, _, [] => ([], [])
  | i, seen, item :: rest =>
    let ins1 := quoraInsert seen item.q1
    let ins2 := quoraInsert ins1.1 item.q2
    let newQs : List Query :=
      if item.is_duplicate then
        [quoraQuery i ((ins2.1.lookup item.q2).getD "") item]
      else []
    let res := quoraLoop (i + 1) ins2.1 rest
    (newQs ++ res.1, (ins1.2 ++ ins2.2) ++ res.2)

def quora_transform (items : List QuoraItem) : List Query × List Document :=
  quoraLoop 0 [] items

/-- The deduplication table `seen_questions` after consuming the given records. -/
def quoraSeenAfter (seen : List (String × String)) : List QuoraItem → List (String × String)
  | [] => seen
  | item :: rest =>
    quoraSeenAfter (quoraInsert (quoraInsert seen item.q1).1 item.q2).1 rest

/-! ## NFCorpus adapter core (`download_nfcorpus_sample`, loop at lines 172-200)

Raw records have an unconditionally indexed `query` field (raises `KeyError`
when absent, modelled by `Except.error`), an optional `corpus-id` field
(membership-tested) and an optional `corpus-text` field (read with a
default via `.get`).  `seen_docs` (dict used as a set) is a list of IDs.
-/

structure NFItem where
  query : Option String
  corpusId : Option String
  corpusText : Option String
deriving DecidableEq, Repr

/-- The query appended for record number `i` when it carries a judgment
(lines 194-200). -/
def nfQuery (i : Nat) (qText docId : String) : Query :=
  { id := "nfcorpus-q-" ++ Nat.repr i, query := qText,
    relevantDocs := [docId], relevanceScores := [1],
    tags := ["medical", "nfcorpus"] }

def nfLoop : Nat → List String → List NFItem → Except Unit (List Query × List Document)
  | _, _, [] => .ok ([], [])
  | i, seen, item :: rest =>
    match item.query with
    | none => .error ()
    | some qText =>
      match item.corpusId with
      | none => nfLoop (i + 1) seen rest
      | some cid =>
        let docId := "nfcorpus-" ++ cid
        let newDocs : List Document :=
          if docId ∈ seen then []
          else [{ id := docId,
                  content := item.corpusText.getD ("Document " ++ docId),
                  metadata := [("medical", MetaVal.bool true)] }]
        let seen2 := if docId ∈ seen then seen else seen ++ [docId]
        match nfLoop (i + 1) seen2 rest with
        | .error e => .error e
        | .ok res =>
          .ok (nfQuery i qText docId :: res.1, newDocs ++ res.2)

def nf_transform (items : List NFItem) : Except Unit (List Query × List Document) :=
  nfLoop 0 [] items

/-- The `seen_docs` set after consuming the given records (assuming no record
aborted before this point). -/
def nfSeenAfter (seen : List String) : List NFItem → List String
  | [] => seen
  | item :: rest =>
    match item.corpusId with
    | none => nfSeenAfter seen rest
    | some cid =>
      let docId := "nfcorpus-" ++ cid
      nfSeenAfter (if docId ∈ seen then seen else seen ++ [docId]) rest

/-! ## Adapter wrappers and the CLI driver (`main`, lines 302-344)

External effects are modelled explicitly: `load` is the outcome of
`load_dataset` (which may raise), `writeOk` the outcome of
`ensure_dir`/`save_jsonl`.  Each `download_*` function wraps its body in
`try/except` and reports a boolean; `create_sample_dataset` has no
`try/except`, so its body's exception propagates.
-/

structure AdapterEnv (α : Type) where
  load : Except Unit (List α)
  writeOk : Bool

/-- The `try: ... return True / except: return False` shape of the four
`download_*` adapters. -/
def runCatch (body : Except Unit Unit) : Bool :=
  match body with
  | .ok _ => true
  | .error _ => false

/-- `ensure_dir` + `save_jsonl`: succeeds or raises. -/
def writeStep (ok : Bool) : Except Unit Unit :=
  if ok then .ok () else .error ()

def download_mteb_sts17 (env : AdapterEnv STSItem) : Bool :=
  runCatch (do
    let items ← env.load
    let _out := sts17_transform items
    writeStep env.writeOk)

def download_squad_sample (env : AdapterEnv SquadItem) : Bool :=
  runCatch (do
    let items ← env.load
    let _out := squad_transform items
    writeStep env.writeOk)

def download_quora_sample (env : AdapterEnv QuoraItem) : Bool :=
  runCatch (do
    let items ← env.load
    let _out := quora_transform items
    writeStep env.writeOk)

def download_nfcorpus_sample (env : AdapterEnv NFItem) : Bool :=
  runCatch (do
    let items ← env.load
    let _out ← nf_transform items
    writeStep env.writeOk)

/-- Lines 211-300: writes `sample_queries`/`sample_corpus`; no `try/except`,
so a write failure propagates as an exception. -/
def create_sample_dataset (writeOk : Bool) : Except Unit Bool := do
  let _data := (sample_queries, sample_corpus)
  writeStep writeOk
  .ok true

structure MainEnv where
  sampleWriteOk : Bool
  sts17 : AdapterEnv STSItem
  squad : AdapterEnv SquadItem
  quora : AdapterEnv QuoraItem
  nfcorpus : AdapterEnv NFItem

/-- The `results` dict built by `main` (lines 307-314), in insertion order.
An uncaught exception from `create_sample_dataset` propagates out of `main`. -/
def mainResults (env : MainEnv) : Except Unit (List (String × Bool)) := do
  let sample ← create_sample_dataset env.sampleWriteOk
  .ok [("sample", sample),
       ("sts17", download_mteb_sts17 env.sts17),
       ("squad", download_squad_sample env.squad),
       ("quora", download_quora_sample env.quora),
       ("nfcorpus", download_nfcorpus_sample env.nfcorpus)]

/-- Process exit status: `sys.exit(0 if success else 1)` where
`success = (successful == len(results))` (lines 325, 340, 344); an uncaught
exception makes the Python interpreter exit with status 1. -/
def processExit (env : MainEnv) : Nat :=
  match mainResults env with
  | .ok results => if (results.filter (fun r => r.2)).length = results.length then 0 else 1
  | .error _ => 1

/-! ## Association-list and ID helpers -/

theorem lookup_append_some {l₁ l₂ : List (String × String)} {k v : String}
    (h : l₁.lookup k = some v) : (l₁ ++ l₂).lookup k = some v := by
  rw [List.lookup_append, h]
  rfl

theorem lookup_append_none {l₁ l₂ : List (String × String)} {k : String}
    (h : l₁.lookup k = none) : (l₁ ++ l₂).lookup k = l₂.lookup k := by
  rw [List.lookup_append, h]
  rfl

theorem lookup_some_mem_snd {l : List (String × String)} {k v : String}
    (h : l.lookup k = some v) : v ∈ l.map Prod.snd := by
  rcases List.lookup_eq_some_iff.mp h with ⟨l₁, l₂, rfl, -⟩
  simp

theorem lookup_some_mem_fst {l : List (String × String)} {k v : String}
    (h : l.lookup k = some v) : k ∈ l.map Prod.fst := by
  rcases List.lookup_eq_some_iff.mp h with ⟨l₁, l₂, rfl, -⟩
  simp

theorem lookup_none_not_mem_fst {l : List (String × String)} {k : String}
    (h : l.lookup k = none) : k ∉ l.map Prod.fst := by
  rw [List.lookup_eq_none_iff] at h
  intro hk
  rcases List.mem_map.mp hk with ⟨p, hp, rfl⟩
  have := h p hp
  simp at this

theorem lookup_isSome_of_mem_fst {l : List (String × String)} {k : String}
    (h : k ∈ l.map Prod.fst) : (l.lookup k).isSome := by
  rw [List.lookup_isSome_iff]
  rcases List.mem_map.mp h with ⟨p, hp, rfl⟩
  exact ⟨p, hp, by simp⟩

theorem range_map_shift {α : Type} (f : Nat → α) (i n : Nat) :
    (List.range (n + 1)).map (fun j => f (i + j))
      = f i :: (List.range n).map (fun j => f (i + 1 + j)) := by
  rw [List.range_succ_eq_map]
  simp only [List.map_cons, List.map_map, Nat.add_zero]
  refine congrArg (f i :: ·) (List.map_congr_left fun a _ => ?_)
  show f (i + (a + 1)) = f (i + 1 + a)
  exact congrArg f (by omega)

theorem nodup_mk_range (p : String) (c n : Nat) :
    ((List.range n).map (fun j => p ++ Nat.repr (c + j))).Nodup := by
  refine List.Nodup.map ?_ (List.nodup_range n)
  intro a b hab
  have := mkId_inj p hab
  omega

theorem nodup_mk_pairwise (p : String) {js : List Nat} (hp : js.Pairwise (· < ·)) :
    (js.map (fun j => p ++ Nat.repr j)).Nodup := by
  have h : (js.map (fun j => p ++ Nat.repr j)).Pairwise (· ≠ ·) := by
    rw [List.pairwise_map]
    exact hp.imp fun hlt heq => by have := mkId_inj p heq; omega
  exact h

/-! ## STS-17 lemmas -/

theorem sts17Loop_eq (i : Nat) (items : List STSItem) :
    sts17Loop i items
      = ((items.enumFrom i).map (fun p => stsQuery p.1 p.2),
         (items.enumFrom i).map (fun p => stsDoc p.1 p.2)) := by
  induction items generalizing i with
  | nil => rfl
  | cons item rest ih => simp [sts17Loop, ih (i + 1), List.enumFrom]

theorem sts17Loop_queries_length (i : Nat) (items : List STSItem) :
    (sts17Loop i items).1.length = items.length := by
  rw [sts17Loop_eq]
  simp

theorem sts17Loop_corpus_length (i : Nat) (items : List STSItem) :
    (sts17Loop i items).2.length = items.length := by
  rw [sts17Loop_eq]
  simp

theorem sts17Loop_doc_ids (i : Nat) (items : List STSItem) :
    (sts17Loop i items).2.map (fun d => d.id)
      = (List.range items.length).map (fun j => "sts17-doc-" ++ Nat.repr (i + j)) := by
  induction items generalizing i with
  | nil => rfl
  | cons item rest ih =>
    simp only [sts17Loop, List.length_cons, List.map_cons]
    rw [range_map_shift (fun j => "sts17-doc-" ++ Nat.repr j) i rest.length]
    exact congrArg _ (ih (i + 1))

theorem sts17Loop_query_ids (i : Nat) (items : List STSItem) :
    (sts17Loop i items).1.map (fun q => q.id)
      = (List.range items.length).map (fun j => "sts17-en-en-" ++ Nat.repr (i + j)) := by
  induction items generalizing i with
  | nil => rfl
  | cons item rest ih =>
    simp only [sts17Loop, List.length_cons, List.map_cons]
    rw [range_map_shift (fun j => "sts17-en-en-" ++ Nat.repr j) i rest.length]
    exact congrArg _ (ih (i + 1))

theorem sts17Loop_refint (i : Nat) (items : List STSItem) :
    ∀ q ∈ (sts17Loop i items).1, ∀ d ∈ q.relevantDocs,
      d ∈ (sts17Loop i items).2.map (fun c => c.id) := by
  induction items generalizing i with
  | nil => intro q hq; simp [sts17Loop] at hq
  | cons item rest ih =>
    intro q hq d hd
    simp only [sts17Loop, List.mem_cons] at hq
    rcases hq with rfl | hq
    · simp only [stsQuery, List.mem_singleton] at hd
      subst hd
      simp [sts17Loop, stsDoc]
    · have := ih (i + 1) q hq d hd
      simp only [sts17Loop, List.map_cons, List.mem_cons]
      exact Or.inr this

theorem sts17Loop_alignment (i : Nat) (items : List STSItem) :
    ∀ q ∈ (sts17Loop i items).1,
      q.relevantDocs.length = q.relevanceScores.length := by
  induction items generalizing i with
  | nil => intro q hq; simp [sts17Loop] at hq
  | cons item rest ih =>
    intro q hq
    simp only [sts17Loop, List.mem_cons] at hq
    rcases hq with rfl | hq
    · rfl
    · exact ih (i + 1) q hq

theorem sts17Loop_nonempty (i : Nat) (items : List STSItem) :
    ∀ q ∈ (sts17Loop i items).1, q.relevantDocs ≠ [] := by
  induction items generalizing i with
  | nil => intro q hq; simp [sts17Loop] at hq
  | cons item rest ih =>
    intro q hq
    simp only [sts17Loop, List.mem_cons] at hq
    rcases hq with rfl | hq
    · simp [stsQuery]
    · exact ih (i + 1) q hq

/-! ## SQuAD lemmas -/

theorem squadSeenAfter_eq (rest : List SquadItem) :
    ∀ (i : Nat) (seen : List (String × String)),
      squadSeenAfter seen rest
        = seen ++ (squadLoop i seen rest).2.map (fun d => (d.content, d.id)) := by
  induction rest with
  | nil => intro i seen; simp [squadSeenAfter, squadLoop]
  | cons item rest ih =>
    intro i seen
    cases hl : seen.lookup item.context with
    | some docId =>
      simp only [squadSeenAfter, squadLoop, hl]
      exact ih (i + 1) seen
    | none =>
      simp only [squadSeenAfter, squadLoop, hl, List.map_cons]
      rw [ih (i + 1) (seen ++ [(item.context, "squad-doc-" ++ Nat.repr seen.length)])]
      simp [squadDoc]

theorem squadSeenAfter_preserve (rest : List SquadItem) :
    ∀ (seen : List (String × String)) (k v : String),
      seen.lookup k = some v → (squadSeenAfter seen rest).lookup k = some v := by
  induction rest with
  | nil => intro seen k v h; simpa [squadSeenAfter] using h
  | cons item rest ih =>
    intro seen k v h
    cases hl : seen.lookup item.context with
    | some d =>
      simp only [squadSeenAfter, hl]
      exact ih seen k v h
    | none =>
      simp only [squadSeenAfter, hl]
      exact ih _ k v (lookup_append_some h)

theorem squadLoop_queries_length (rest : List SquadItem) :
    ∀ (i : Nat) (seen : List (String × String)),
      (squadLoop i seen rest).1.length = rest.length := by
  induction rest with
  | nil => intro i seen; rfl
  | cons item rest ih =>
    intro i seen
    cases hl : seen.lookup item.context with
    | some d => simp only [squadLoop, hl, List.length_cons, ih]
    | none => simp only [squadLoop, hl, List.length_cons, ih]

theorem squadLoop_query_docs (rest : List SquadItem) :
    ∀ (i : Nat) (seen : List (String × String)) (j : Nat) (item : SquadItem),
      rest[j]? = some item →
      ∃ v, (squadSeenAfter seen rest).lookup item.context = some v ∧
        ((squadLoop i seen rest).1.map (fun q => q.relevantDocs))[j]? = some [v] := by
  induction rest with
  | nil => intro i seen j item h; simp at h
  | cons hd rest ih =>
    intro i seen j item hj
    cases j with
    | zero =>
      simp only [List.getElem?_cons_zero, Option.some.injEq] at hj
      subst hj
      cases hl : seen.lookup hd.context with
      | some d =>
        refine ⟨d, ?_, ?_⟩
        · simp only [squadSeenAfter, hl]
          exact squadSeenAfter_preserve rest seen _ _ hl
        · simp [squadLoop, hl, squadQuery]
      | none =>
        refine ⟨"squad-doc-" ++ Nat.repr seen.length, ?_, ?_⟩
        · simp only [squadSeenAfter, hl]
          apply squadSeenAfter_preserve
          rw [lookup_append_none hl]
          simp
        · simp [squadLoop, hl, squadQuery]
    | succ j =>
      simp only [List.getElem?_cons_succ] at hj
      cases hl : seen.lookup hd.context with
      | some d =>
        obtain ⟨v, h1, h2⟩ := ih (i + 1) seen j item hj
        refine ⟨v, ?_, ?_⟩
        · simpa only [squadSeenAfter, hl] using h1
        · simp only [squadLoop, hl, List.map_cons, List.getElem?_cons_succ]
          exact h2
      | none =>
        obtain ⟨v, h1, h2⟩ :=
          ih (i + 1) (seen ++ [(hd.context, "squad-doc-" ++ Nat.repr seen.length)]) j item hj
        refine ⟨v, ?_, ?_⟩
        · simpa only [squadSeenAfter, hl] using h1
        · simp only [squadLoop, hl, List.map_cons, List.getElem?_cons_succ]
          exact h2

theorem squadSeenAfter_keys_nodup (rest : List SquadItem) :
    ∀ seen : List (String × String), (seen.map Prod.fst).Nodup →
      ((squadSeenAfter seen rest).map Prod.fst).Nodup := by
  induction rest with
  | nil => intro seen h; simpa [squadSeenAfter] using h
  | cons item rest ih =>
    intro seen h
    cases hl : seen.lookup item.context with
    | some d =>
      simp only [squadSeenAfter, hl]
      exact ih seen h
    | none =>
      simp only [squadSeenAfter, hl]
      apply ih
      rw [List.map_append, List.nodup_append]
      refine ⟨h, by simp, ?_⟩
      intro a ha hb
      simp only [List.map_cons, List.map_nil, List.mem_singleton] at hb
      subst hb
      exact lookup_none_not_mem_fst hl ha

theorem squadSeenAfter_values (rest : List SquadItem) :
    ∀ seen : List (String × String),
      seen.map Prod.snd = (List.range seen.length).map (fun j => "squad-doc-" ++ Nat.repr j) →
      (squadSeenAfter seen rest).map Prod.snd
        = (List.range (squadSeenAfter seen rest).length).map
            (fun j => "squad-doc-" ++ Nat.repr j) := by
  induction rest with
  | nil => intro seen h; simpa [squadSeenAfter] using h
  | cons item rest ih =>
    intro seen h
    cases hl : seen.lookup item.context with
    | some d =>
      simp only [squadSeenAfter, hl]
      exact ih seen h
    | none =>
      simp only [squadSeenAfter, hl]
      apply ih
      rw [List.map_append, h, List.length_append]
      simp [List.range_succ]

theorem squad_corpus_pairs (items : List SquadItem) :
    (squad_transform items).2.map (fun d => (d.content, d.id)) = squadSeenAfter [] items := by
  rw [squadSeenAfter_eq items 0 []]
  rfl

theorem squad_corpus_ids_nodup (items : List SquadItem) :
    ((squad_transform items).2.map (fun d => d.id)).Nodup := by
  have hval := squadSeenAfter_values items [] (by simp)
  have hids : (squad_transform items).2.map (fun d => d.id)
      = (squadSeenAfter [] items).map Prod.snd := by
    rw [← squad_corpus_pairs items, List.map_map]
    rfl
  rw [hids, hval]
  have := nodup_mk_range "squad-doc-" 0 (squadSeenAfter [] items).length
  simpa using this

theorem squad_corpus_contents_eq (items : List SquadItem) :
    (squad_transform items).2.map (fun d => d.content)
      = (squadSeenAfter [] items).map Prod.fst := by
  rw [← squad_corpus_pairs items, List.map_map]
  rfl

theorem squad_corpus_contents_nodup (items : List SquadItem) :
    ((squad_transform items).2.map (fun d => d.content)).Nodup := by
  rw [squad_corpus_contents_eq]
  exact squadSeenAfter_keys_nodup items [] (by simp)

theorem squadLoop_query_shape (rest : List SquadItem) :
    ∀ (i : Nat) (seen : List (String × String)), ∀ q ∈ (squadLoop i seen rest).1,
      ∃ d, q.relevantDocs = [d] ∧ q.relevanceScores = [1] := by
  induction rest with
  | nil => intro i seen q hq; simp [squadLoop] at hq
  | cons item rest ih =>
    intro i seen q hq
    cases hl : seen.lookup item.context with
    | some d =>
      simp only [squadLoop, hl, List.mem_cons] at hq
      rcases hq with rfl | hq
      · exact ⟨d, rfl, rfl⟩
      · exact ih (i + 1) seen q hq
    | none =>
      simp only [squadLoop, hl, List.mem_cons] at hq
      rcases hq with rfl | hq
      · exact ⟨_, rfl, rfl⟩
      · exact ih (i + 1) _ q hq

theorem squadLoop_refint (rest : List SquadItem) :
    ∀ (i : Nat) (seen : List (String × String)), ∀ q ∈ (squadLoop i seen rest).1,
      ∀ d ∈ q.relevantDocs,
        d ∈ seen.map Prod.snd ∨ d ∈ (squadLoop i seen rest).2.map (fun c => c.id) := by
  induction rest with
  | nil => intro i seen q hq; simp [squadLoop] at hq
  | cons item rest ih =>
    intro i seen q hq d hd
    cases hl : seen.lookup item.context with
    | some docId =>
      simp only [squadLoop, hl, List.mem_cons] at hq
      simp only [squadLoop, hl]
      rcases hq with rfl | hq
      · simp only [squadQuery, List.mem_singleton] at hd
        subst hd
        exact Or.inl (lookup_some_mem_snd hl)
      · exact ih (i + 1) seen q hq d hd
    | none =>
      simp only [squadLoop, hl, List.mem_cons] at hq
      simp only [squadLoop, hl, List.map_cons]
      rcases hq with rfl | hq
      · simp only [squadQuery, List.mem_singleton] at hd
        subst hd
        exact Or.inr (List.mem_cons_self _ _)
      · rcases ih (i + 1) _ q hq d hd with h | h
        · rw [List.map_append] at h
          rcases List.mem_append.mp h with h' | h'
          · exact Or.inl h'
          · simp only [List.map_cons, List.map_nil, List.mem_singleton] at h'
            subst h'
            exact Or.inr (List.mem_cons_self _ _)
        · exact Or.inr (List.mem_cons_of_mem _ h)

theorem squadLoop_query_ids (rest : List SquadItem) :
    ∀ (i : Nat) (seen : List (String × String)),
      (squadLoop i seen rest).1.map (fun q => q.id)
        = (List.range rest.length).map (fun j => "squad-q-" ++ Nat.repr (i + j)) := by
  induction rest with
  | nil => intro i seen; rfl
  | cons item rest ih =>
    intro i seen
    cases hl : seen.lookup item.context with
    | some d =>
      simp only [squadLoop, hl, List.map_cons, List.length_cons]
      rw [range_map_shift (fun j => "squad-q-" ++ Nat.repr j) i rest.length]
      exact congrArg _ (ih (i + 1) seen)
    | none =>
      simp only [squadLoop, hl, List.map_cons, List.length_cons]
      rw [range_map_shift (fun j => "squad-q-" ++ Nat.repr j) i rest.length]
      exact congrArg _ (ih (i + 1) _)

theorem squad_query_ids_nodup (items : List SquadItem) :
    ((squad_transform items).1.map (fun q => q.id)).Nodup := by
  rw [squad_transform, squadLoop_query_ids items 0 []]
  exact nodup_mk_range "squad-q-" 0 items.length

/-! ## Quora lemmas -/

theorem quoraInsert_fst (seen : List (String × String)) (q : String) :
    (quoraInsert seen q).1 = seen ++ (quoraInsert seen q).2.map (fun d => (d.content, d.id)) := by
  unfold quoraInsert
  cases hl : seen.lookup q <;> simp

theorem quoraInsert_preserve {seen : List (String × String)} {k v : String} (q : String)
    (h : seen.lookup k = some v) : ((quoraInsert seen q).1).lookup k = some v := by
  unfold quoraInsert
  cases hl : seen.lookup q with
  | some d => simpa using h
  | none => simpa using lookup_append_some h

theorem quoraInsert_values_decomp (seen : List (String × String)) (q : String) :
    ((quoraInsert seen q).1).map Prod.snd
      = seen.map Prod.snd ++ ((quoraInsert seen q).2).map (fun d => d.id) := by
  rw [quoraInsert_fst seen q, List.map_append, List.map_map]
  rfl

theorem quoraInsert_lookup_self (seen : List (String × String)) (q : String) :
    ∃ v, ((quoraInsert seen q).1).lookup q = some v ∧
      (v ∈ seen.map Prod.snd ∨ v ∈ (quoraInsert seen q).2.map (fun d => d.id)) := by
  unfold quoraInsert
  cases hl : seen.lookup q with
  | some d => exact ⟨d, by simpa using hl, Or.inl (lookup_some_mem_snd hl)⟩
  | none =>
    refine ⟨"quora-q-" ++ Nat.repr seen.length, ?_, Or.inr (by simp)⟩
    simp [lookup_append_none hl]

theorem quoraInsert_values {seen : List (String × String)} (q : String)
    (h : seen.map Prod.snd = (List.range seen.length).map (fun j => "quora-q-" ++ Nat.repr j)) :
    ((quoraInsert seen q).1).map Prod.snd
      = (List.range (quoraInsert seen q).1.length).map (fun j => "quora-q-" ++ Nat.repr j) := by
  unfold quoraInsert
  cases hl : seen.lookup q with
  | some d => simpa using h
  | none =>
    simp only [List.map_append, List.length_append, h]
    simp [List.range_succ]

theorem quoraInsert_keys_nodup {seen : List (String × String)} (q : String)
    (h : (seen.map Prod.fst).Nodup) : (((quoraInsert seen q).1).map Prod.fst).Nodup := by
  unfold quoraInsert
  cases hl : seen.lookup q with
  | some d => simpa using h
  | none =>
    simp only [List.map_append, List.nodup_append]
    refine ⟨h, by simp, ?_⟩
    intro a ha hb
    simp only [List.map_cons, List.map_nil, List.mem_singleton] at hb
    subst hb
    exact lookup_none_not_mem_fst hl ha

theorem quoraSeenAfter_eq (rest : List QuoraItem) :
    ∀ (i : Nat) (seen : List (String × String)),
      quoraSeenAfter seen rest
        = seen ++ (quoraLoop i seen rest).2.map (fun d => (d.content, d.id)) := by
  induction rest with
  | nil => intro i seen; simp [quoraSeenAfter, quoraLoop]
  | cons item rest ih =>
    intro i seen
    have h1 := quoraInsert_fst seen item.q1
    have h2 := quoraInsert_fst (quoraInsert seen item.q1).1 item.q2
    simp only [quoraSeenAfter, quoraLoop]
    rw [ih (i + 1), h2, h1]
    simp [List.map_append, List.append_assoc]

theorem quoraSeenAfter_values (rest : List QuoraItem) :
    ∀ seen : List (String × String),
      seen.map Prod.snd = (List.range seen.length).map (fun j => "quora-q-" ++ Nat.repr j) →
      (quoraSeenAfter seen rest).map Prod.snd
        = (List.range (quoraSeenAfter seen rest).length).map
            (fun j => "quora-q-" ++ Nat.repr j) := by
  induction rest with
  | nil => intro seen h; simpa [quoraSeenAfter] using h
  | cons item rest ih =>
    intro seen h
    simp only [quoraSeenAfter]
    exact ih _ (quoraInsert_values item.q2 (quoraInsert_values item.q1 h))

theorem quoraSeenAfter_keys_nodup (rest : List QuoraItem) :
    ∀ seen : List (String × String), (seen.map Prod.fst).Nodup →
      ((quoraSeenAfter seen rest).map Prod.fst).Nodup := by
  induction rest with
  | nil => intro seen h; simpa [quoraSeenAfter] using h
  | cons item rest ih =>
    intro seen h
    simp only [quoraSeenAfter]
    exact ih _ (quoraInsert_keys_nodup item.q2 (quoraInsert_keys_nodup item.q1 h))

theorem quora_corpus_pairs (items : List QuoraItem) :
    (quora_transform items).2.map (fun d => (d.content, d.id)) = quoraSeenAfter [] items := by
  rw [quoraSeenAfter_eq items 0 []]
  rfl

theorem quora_corpus_ids_nodup (items : List QuoraItem) :
    ((quora_transform items).2.map (fun d => d.id)).Nodup := by
  have hval := quoraSeenAfter_values items [] (by simp)
  have hids : (quora_transform items).2.map (fun d => d.id)
      = (quoraSeenAfter [] items).map Prod.snd := by
    rw [← quora_corpus_pairs items, List.map_map]
    rfl
  rw [hids, hval]
  have := nodup_mk_range "quora-q-" 0 (quoraSeenAfter [] items).length
  simpa using this

theorem quora_corpus_contents_nodup (items : List QuoraItem) :
    ((quora_transform items).2.map (fun d => d.content)).Nodup := by
  have hkeys := quoraSeenAfter_keys_nodup items [] (by simp)
  have hcont : (quora_transform items).2.map (fun d => d.content)
      = (quoraSeenAfter [] items).map Prod.fst := by
    rw [← quora_corpus_pairs items, List.map_map]
    rfl
  rw [hcont]
  exact hkeys

theorem quoraLoop_refint (rest : List QuoraItem) :
    ∀ (i : Nat) (seen : List (String × String)), ∀ q ∈ (quoraLoop i seen rest).1,
      ∀ d ∈ q.relevantDocs,
        d ∈ seen.map Prod.snd ∨ d ∈ (quoraLoop i seen rest).2.map (fun c => c.id) := by
  induction rest with
  | nil => intro i seen q hq; simp [quoraLoop] at hq
  | cons item rest ih =>
    intro i seen q hq d hd
    simp only [quoraLoop, List.mem_append] at hq
    simp only [quoraLoop, List.map_append, List.mem_append]
    rcases hq with hq | hq
    · by_cases hdup : item.is_duplicate
      · simp only [hdup, if_true, List.mem_singleton] at hq
        subst hq
        simp only [quoraQuery, List.mem_singleton] at hd
        subst hd
        obtain ⟨v, hv, hmem⟩ := quoraInsert_lookup_self (quoraInsert seen item.q1).1 item.q2
        rw [hv]
        simp only [Option.getD_some]
        rcases hmem with hmem | hmem
        · rw [quoraInsert_values_decomp seen item.q1] at hmem
          rcases List.mem_append.mp hmem with h | h
          · exact Or.inl h
          · exact Or.inr (Or.inl (Or.inl h))
        · exact Or.inr (Or.inl (Or.inr hmem))
      · simp [hdup] at hq
    · rcases ih (i + 1) _ q hq d hd with h | h
      · rw [quoraInsert_values_decomp (quoraInsert seen item.q1).1 item.q2,
          quoraInsert_values_decomp seen item.q1] at h
        rcases List.mem_append.mp h with h' | h'
        · rcases List.mem_append.mp h' with h'' | h''
          · exact Or.inl h''
          · exact Or.inr (Or.inl (Or.inl h''))
        · exact Or.inr (Or.inl (Or.inr h'))
      · exact Or.inr (Or.inr h)

theorem quoraLoop_query_shape (rest : List QuoraItem) :
    ∀ (i : Nat) (seen : List (String × String)), ∀ q ∈ (quoraLoop i seen rest).1,
      ∃ d, q.relevantDocs = [d] ∧ q.relevanceScores = [1] := by
  induction rest with
  | nil => intro i seen q hq; simp [quoraLoop] at hq
  | cons item rest ih =>
    intro i seen q hq
    simp only [quoraLoop, List.mem_append] at hq
    rcases hq with hq | hq
    · by_cases hdup : item.is_duplicate
      · simp only [hdup, if_true, List.mem_singleton] at hq
        subst hq
        exact ⟨_, rfl, rfl⟩
      · simp [hdup] at hq
    · exact ih (i + 1) _ q hq

theorem quoraLoop_queries_count (rest : List QuoraItem) :
    ∀ (i : Nat) (seen : List (String × String)),
      (quoraLoop i seen rest).1.length
        = (rest.filter (fun it => it.is_duplicate)).length := by
  induction rest with
  | nil => intro i seen; rfl
  | cons item rest ih =>
    intro i seen
    by_cases hdup : item.is_duplicate <;>
      simp [quoraLoop, List.filter_cons, hdup, ih]

theorem quoraLoop_query_ids (rest : List QuoraItem) :
    ∀ (i : Nat) (seen : List (String × String)),
      ∃ js : List Nat, js.Pairwise (· < ·) ∧ (∀ j ∈ js, i ≤ j) ∧
        (quoraLoop i seen rest).1.map (fun q => q.id)
          = js.map (fun j => "quora-pair-" ++ Nat.repr j) := by
  induction rest with
  | nil => intro i seen; exact ⟨[], by simp, by simp, rfl⟩
  | cons item rest ih =>
    intro i seen
    obtain ⟨js, hpw, hge, heq⟩ := ih (i + 1) (quoraInsert (quoraInsert seen item.q1).1 item.q2).1
    by_cases hdup : item.is_duplicate
    · refine ⟨i :: js, ?_, ?_, ?_⟩
      · exact List.Pairwise.cons (fun j hj => by have := hge j hj; omega) hpw
      · intro j hj
        rcases List.mem_cons.mp hj with rfl | hj
        · exact Nat.le_refl _
        · have := hge j hj; omega
      · simp [quoraLoop, hdup, quoraQuery, heq]
    · refine ⟨js, hpw, fun j hj => by have := hge j hj; omega, ?_⟩
      simp [quoraLoop, hdup, heq]

theorem quora_query_ids_nodup (items : List QuoraItem) :
    ((quora_transform items).1.map (fun q => q.id)).Nodup := by
  obtain ⟨js, hpw, -, heq⟩ := quoraLoop_query_ids items 0 []
  rw [quora_transform, heq]
  exact nodup_mk_pairwise _ hpw

/-! ## NFCorpus lemmas -/

theorem nfLoop_error_of_missing_query (items : List NFItem) :
    ∀ (i : Nat) (seen : List String) (it : NFItem), it ∈ items → it.query = none →
      nfLoop i seen items = .error () := by
  induction items with
  | nil => intro i seen it hit; simp at hit
  | cons item rest ih =>
    intro i seen it hit hq
    rcases List.mem_cons.mp hit with rfl | hit
    · simp [nfLoop, hq]
    · cases hq0 : item.query with
      | none => simp [nfLoop, hq0]
      | some qt =>
        cases hcid : item.corpusId with
        | none =>
          simp only [nfLoop, hq0, hcid]
          exact ih _ _ it hit hq
        | some cid =>
          simp only [nfLoop, hq0, hcid]
          rw [ih _ _ it hit hq]

theorem nfLoop_seen_eq (items : List NFItem) :
    ∀ (i : Nat) (seen : List String) (res : List Query × List Document),
      nfLoop i seen items = .ok res →
      nfSeenAfter seen items = seen ++ res.2.map (fun d => d.id) := by
  induction items with
  | nil =>
    intro i seen res h
    simp only [nfLoop, Except.ok.injEq] at h
    subst h
    simp [nfSeenAfter]
  | cons item rest ih =>
    intro i seen res h
    cases hq : item.query with
    | none => simp only [nfLoop, hq] at h; exact absurd h (by simp)
    | some qt =>
      cases hcid : item.corpusId with
      | none =>
        simp only [nfLoop, hq, hcid] at h
        simp only [nfSeenAfter, hcid]
        exact ih _ _ _ h
      | some cid =>
        simp only [nfLoop, hq, hcid] at h
        simp only [nfSeenAfter, hcid]
        cases hrec : nfLoop (i + 1)
            (if "nfcorpus-" ++ cid ∈ seen then seen else seen ++ ["nfcorpus-" ++ cid]) rest with
        | error e => rw [hrec] at h; exact absurd h (by simp)
        | ok res' =>
          rw [hrec] at h
          simp only [Except.ok.injEq] at h
          subst h
          by_cases hmem : "nfcorpus-" ++ cid ∈ seen
          · have := ih _ _ _ (by simpa [hmem] using hrec)
            simpa [hmem] using this
          · have := ih _ _ _ (by simpa [hmem] using hrec)
            simpa [hmem, List.append_assoc] using this

theorem nfLoop_seen_nodup (items : List NFItem) :
    ∀ (i : Nat) (seen : List String) (res : List Query × List Document),
      seen.Nodup → nfLoop i seen items = .ok res →
      (seen ++ res.2.map (fun d => d.id)).Nodup := by
  induction items with
  | nil =>
    intro i seen res hnd h
    simp only [nfLoop, Except.ok.injEq] at h
    subst h
    simpa using hnd
  | cons item rest ih =>
    intro i seen res hnd h
    cases hq : item.query with
    | none => simp only [nfLoop, hq] at h; exact absurd h (by simp)
    | some qt =>
      cases hcid : item.corpusId with
      | none =>
        simp only [nfLoop, hq, hcid] at h
        exact ih _ _ _ hnd h
      | some cid =>
        simp only [nfLoop, hq, hcid] at h
        cases hrec : nfLoop (i + 1)
            (if "nfcorpus-" ++ cid ∈ seen then seen else seen ++ ["nfcorpus-" ++ cid]) rest with
        | error e => rw [hrec] at h; exact absurd h (by simp)
        | ok res' =>
          rw [hrec] at h
          simp only [Except.ok.injEq] at h
          subst h
          by_cases hmem : "nfcorpus-" ++ cid ∈ seen
          · have := ih _ _ _ hnd (by simpa [hmem] using hrec)
            simpa [hmem] using this
          · have hnd2 : (seen ++ ["nfcorpus-" ++ cid]).Nodup := by
              rw [List.nodup_append]
              refine ⟨hnd, by simp, ?_⟩
              intro a ha hb
              simp only [List.mem_singleton] at hb
              subst hb
              exact hmem ha
            have := ih _ _ _ hnd2 (by simpa [hmem] using hrec)
            simpa [hmem, List.append_assoc] using this

theorem nf_corpus_ids_nodup (items : List NFItem) (res : List Query × List Document)
    (h : nf_transform items = .ok res) : (res.2.map (fun d => d.id)).Nodup := by
  have := nfLoop_seen_nodup items 0 [] res (by simp) h
  simpa using this

theorem nfLoop_refint (items : List NFItem) :
    ∀ (i : Nat) (seen : List String) (res : List Query × List Document),
      nfLoop i seen items = .ok res →
      ∀ q ∈ res.1, ∀ d ∈ q.relevantDocs, d ∈ seen ∨ d ∈ res.2.map (fun c => c.id) := by
  induction items with
  | nil =>
    intro i seen res h
    simp only [nfLoop, Except.ok.injEq] at h
    subst h
    simp
  | cons item rest ih =>
    intro i seen res h q hq d hd
    cases hq0 : item.query with
    | none => simp only [nfLoop, hq0] at h; exact absurd h (by simp)
    | some qt =>
      cases hcid : item.corpusId with
      | none =>
        simp only [nfLoop, hq0, hcid] at h
        exact ih _ _ _ h q hq d hd
      | some cid =>
        simp only [nfLoop, hq0, hcid] at h
        cases hrec : nfLoop (i + 1)
            (if "nfcorpus-" ++ cid ∈ seen then seen else seen ++ ["nfcorpus-" ++ cid]) rest with
        | error e => rw [hrec] at h; exact absurd h (by simp)
        | ok res' =>
          rw [hrec] at h
          simp only [Except.ok.injEq] at h
          subst h
          simp only [List.mem_cons] at hq
          by_cases hmem : "nfcorpus-" ++ cid ∈ seen
          · rcases hq with rfl | hq
            · simp only [nfQuery, List.mem_singleton] at hd
              subst hd
              exact Or.inl hmem
            · have := ih _ _ _ (by simpa [hmem] using hrec) q hq d hd
              rcases this with h' | h'
              · exact Or.inl h'
              · simp only [hmem, if_true, List.map_append, List.mem_append]
                exact Or.inr (by simpa using h')
          · rcases hq with rfl | hq
            · simp only [nfQuery, List.mem_singleton] at hd
              subst hd
              simp [hmem]
            · have := ih _ _ _ (by simpa [hmem] using hrec) q hq d hd
              rcases this with h' | h'
              · rcases List.mem_append.mp h' with h'' | h''
                · exact Or.inl h''
                · simp only [List.mem_singleton] at h''
                  subst h''
                  simp [hmem]
              · simp only [hmem, if_false, List.map_append, List.mem_append]
                right
                right
                simpa using h'

theorem nfLoop_query_shape (items : List NFItem) :
    ∀ (i : Nat) (seen : List String) (res : List Query × List Document),
      nfLoop i seen items = .ok res →
      ∀ q ∈ res.1, ∃ d0, q.relevantDocs = [d0] ∧ q.relevanceScores = [1] := by
  induction items with
  | nil =>
    intro i seen res h
    simp only [nfLoop, Except.ok.injEq] at h
    subst h
    simp
  | cons item rest ih =>
    intro i seen res h q hq
    cases hq0 : item.query with
    | none => simp only [nfLoop, hq0] at h; exact absurd h (by simp)
    | some qt =>
      cases hcid : item.corpusId with
      | none =>
        simp only [nfLoop, hq0, hcid] at h
        exact ih _ _ _ h q hq
      | some cid =>
        simp only [nfLoop, hq0, hcid] at h
        cases hrec : nfLoop (i + 1)
            (if "nfcorpus-" ++ cid ∈ seen then seen else seen ++ ["nfcorpus-" ++ cid]) rest with
        | error e => rw [hrec] at h; exact absurd h (by simp)
        | ok res' =>
          rw [hrec] at h
          simp only [Except.ok.injEq] at h
          subst h
          simp only [List.mem_cons] at hq
          rcases hq with rfl | hq
          · exact ⟨_, rfl, rfl⟩
          · exact ih _ _ _ hrec q hq

theorem nfLoop_queries_count (items : List NFItem) :
    ∀ (i : Nat) (seen : List String) (res : List Query × List Document),
      nfLoop i seen items = .ok res →
      res.1.length = (items.filter (fun it => it.corpusId.isSome)).length := by
  induction items with
  | nil =>
    intro i seen res h
    simp only [nfLoop, Except.ok.injEq] at h
    subst h
    simp
  | cons item rest ih =>
    intro i seen res h
    cases hq0 : item.query with
    | none => simp only [nfLoop, hq0] at h; exact absurd h (by simp)
    | some qt =>
      cases hcid : item.corpusId with
      | none =>
        simp only [nfLoop, hq0, hcid] at h
        rw [List.filter_cons]
        simp only [hcid, Option.isSome_none, Bool.false_eq_true, if_false]
        exact ih _ _ _ h
      | some cid =>
        simp only [nfLoop, hq0, hcid] at h
        cases hrec : nfLoop (i + 1)
            (if "nfcorpus-" ++ cid ∈ seen then seen else seen ++ ["nfcorpus-" ++ cid]) rest with
        | error e => rw [hrec] at h; exact absurd h (by simp)
        | ok res' =>
          rw [hrec] at h
          simp only [Except.ok.injEq] at h
          subst h
          rw [List.filter_cons]
          simp only [hcid, Option.isSome_some, if_true, List.length_cons]
          exact congrArg (· + 1) (ih _ _ _ hrec)

theorem nfLoop_query_ids (items : List NFItem) :
    ∀ (i : Nat) (seen : List String) (res : List Query × List Document),
      nfLoop i seen items = .ok res →
      ∃ js : List Nat, js.Pairwise (· < ·) ∧ (∀ j ∈ js, i ≤ j) ∧
        res.1.map (fun q => q.id) = js.map (fun j => "nfcorpus-q-" ++ Nat.repr j) := by
  induction items with
  | nil =>
    intro i seen res h
    simp only [nfLoop, Except.ok.injEq] at h
    subst h
    exact ⟨[], by simp, by simp, rfl⟩
  | cons item rest ih =>
    intro i seen res h
    cases hq0 : item.query with
    | none => simp only [nfLoop, hq0] at h; exact absurd h (by simp)
    | some qt =>
      cases hcid : item.corpusId with
      | none =>
        simp only [nfLoop, hq0, hcid] at h
        obtain ⟨js, hpw, hge, heq⟩ := ih _ _ _ h
        exact ⟨js, hpw, fun j hj => by have := hge j hj; omega, heq⟩
      | some cid =>
        simp only [nfLoop, hq0, hcid] at h
        cases hrec : nfLoop (i + 1)
            (if "nfcorpus-" ++ cid ∈ seen then seen else seen ++ ["nfcorpus-" ++ cid]) rest with
        | error e => rw [hrec] at h; exact absurd h (by simp)
        | ok res' =>
          rw [hrec] at h
          simp only [Except.ok.injEq] at h
          subst h
          obtain ⟨js, hpw, hge, heq⟩ := ih _ _ _ hrec
          refine ⟨i :: js, ?_, ?_, ?_⟩
          · exact List.Pairwise.cons (fun j hj => by have := hge j hj; omega) hpw
          · intro j hj
            rcases List.mem_cons.mp hj with rfl | hj
            · exact Nat.le_refl _
            · have := hge j hj; omega
          · simp [nfQuery, heq]

theorem nf_query_ids_nodup (items : List NFItem) (res : List Query × List Document)
    (h : nf_transform items = .ok res) : (res.1.map (fun q => q.id)).Nodup := by
  obtain ⟨js, hpw, -, heq⟩ := nfLoop_query_ids items 0 [] res h
  rw [heq]
  exact nodup_mk_pairwise _ hpw

/-! ## Counting helper -/

theorem filter_content_length_eq_count (cs : List Document) (k : String) :
    (cs.filter (fun d => d.content == k)).length
      = (cs.map (fun d => d.content)).count k := by
  rw [List.count_eq_countP, ← List.countP_eq_length_filter, List.countP_map]
  rfl

/-! ## CLI driver lemmas -/

theorem mainResults_ok (env : MainEnv) (h : env.sampleWriteOk = true) :
    mainResults env = .ok [("sample", true),
      ("sts17", download_mteb_sts17 env.sts17),
      ("squad", download_squad_sample env.squad),
      ("quora", download_quora_sample env.quora),
      ("nfcorpus", download_nfcorpus_sample env.nfcorpus)] := by
  simp [mainResults, create_sample_dataset, writeStep, h, Bind.bind, Except.bind]

theorem mainResults_error (env : MainEnv) (h : env.sampleWriteOk = false) :
    mainResults env = .error () := by
  simp [mainResults, create_sample_dataset, writeStep, h, Bind.bind, Except.bind]

theorem processExit_eq_zero_iff (env : MainEnv) (results : List (String × Bool))
    (h : mainResults env = .ok results) :
    (processExit env = 0 ↔ ∀ r ∈ results, r.2 = true) := by
  unfold processExit
  rw [h]
  constructor
  · intro h0
    by_cases hc : (results.filter (fun r => r.2)).length = results.length
    · have heq : results.filter (fun r => r.2) = results :=
        (List.filter_sublist _).eq_of_length hc
      intro r hr
      have := List.filter_eq_self.mp heq r hr
      simpa using this
    · simp [hc] at h0
  · intro hall
    have heq : results.filter (fun r => r.2) = results :=
      List.filter_eq_self.mpr (fun a ha => by simp [hall a ha])
    simp [heq]

/-! ## Claims -/

/-- Claim C1: for every emitted Query in every dataset adapter's output batch
(sample, sts17, squad, quora, nfcorpus), every document ID appearing in that
Query's `relevantDocs` list is the ID of some Document present in the corpus
output of the same batch. -/
theorem claim_C1 :
    (∀ q ∈ sample_queries, ∀ d ∈ q.relevantDocs, d ∈ sample_corpus.map (fun c => c.id))
    ∧ (∀ items : List STSItem, ∀ q ∈ (sts17_transform items).1, ∀ d ∈ q.relevantDocs,
        d ∈ (sts17_transform items).2.map (fun c => c.id))
    ∧ (∀ items : List SquadItem, ∀ q ∈ (squad_transform items).1, ∀ d ∈ q.relevantDocs,
        d ∈ (squad_transform items).2.map (fun c => c.id))
    ∧ (∀ items : List QuoraItem, ∀ q ∈ (quora_transform items).1, ∀ d ∈ q.relevantDocs,
        d ∈ (quora_transform items).2.map (fun c => c.id))
    ∧ (∀ (items : List NFItem) (res : List Query × List Document),
        nf_transform items = .ok res → ∀ q ∈ res.1, ∀ d ∈ q.relevantDocs,
          d ∈ res.2.map (fun c => c.id)) := by
  refine ⟨by decide, ?_, ?_, ?_, ?_⟩
  · intro items q hq d hd
    exact sts17Loop_refint 0 items q hq d hd
  · intro items q hq d hd
    rcases squadLoop_refint items 0 [] q hq d hd with h | h
    · simp at h
    · exact h
  · intro items q hq d hd
    rcases quoraLoop_refint items 0 [] q hq d hd with h | h
    · simp at h
    · exact h
  · intro items res h q hq d hd
    rcases nfLoop_refint items 0 [] res h q hq d hd with h' | h'
    · simp at h'
    · exact h'

/-- Witness for C1 at concrete one-record inputs for each adapter. -/
theorem claim_C1_witness :
    ("sts17-doc-0" ∈ (sts17_transform [⟨"s one", "s two", 5⟩]).2.map (fun c => c.id))
    ∧ ("squad-doc-0" ∈ (squad_transform [⟨"ctx", "who", "ttl"⟩]).2.map (fun c => c.id))
    ∧ ("quora-q-1" ∈ (quora_transform [⟨"qa", "qb", true⟩]).2.map (fun c => c.id))
    ∧ ("nfcorpus-d1" ∈
        ([{ id := "nfcorpus-d1", content := "tt",
            metadata := [("medical", MetaVal.bool true)] }] : List Document).map
          (fun c => c.id)) := by
  refine ⟨?_, ?_, ?_, ?_⟩
  · exact claim_C1.2.1 [⟨"s one", "s two", 5⟩] (stsQuery 0 ⟨"s one", "s two", 5⟩)
      (List.mem_singleton.mpr rfl) "sts17-doc-0" (by decide)
  · exact claim_C1.2.2.1 [⟨"ctx", "who", "ttl"⟩]
      (squadQuery 0 "squad-doc-0" ⟨"ctx", "who", "ttl"⟩) (by decide) "squad-doc-0" (by decide)
  · exact claim_C1.2.2.2.1 [⟨"qa", "qb", true⟩]
      (quoraQuery 0 "quora-q-1" ⟨"qa", "qb", true⟩) (by decide) "quora-q-1" (by decide)
  · exact claim_C1.2.2.2.2 [⟨some "qq", some "d1", some "tt"⟩]
      ([nfQuery 0 "qq" "nfcorpus-d1"],
       [{ id := "nfcorpus-d1", content := "tt", metadata := [("medical", MetaVal.bool true)] }])
      rfl (nfQuery 0 "qq" "nfcorpus-d1") (by decide) "nfcorpus-d1" (by decide)

/-- Claim C2: with content-identity deduplication (squad: key = context text;
quora: key = question text), two raw records referencing the same key yield a
single shared Document: the corpus has exactly one Document with that content
and both Queries' `relevantDocs` coincide. -/
theorem claim_C2 :
    (∀ (items : List SquadItem) (a b : Nat) (x y : SquadItem),
      items[a]? = some x → items[b]? = some y → x.context = y.context →
      ((squad_transform items).1.map (fun q => q.relevantDocs))[a]?
        = ((squad_transform items).1.map (fun q => q.relevantDocs))[b]?
      ∧ ((squad_transform items).2.filter (fun d => d.content == x.context)).length = 1)
    ∧ (∀ items : List QuoraItem,
        ((quora_transform items).2.map (fun d => d.content)).Nodup) := by
  refine ⟨?_, quora_corpus_contents_nodup⟩
  intro items a b x y ha hb hxy
  obtain ⟨v, hva, h2a⟩ := squadLoop_query_docs items 0 [] a x ha
  obtain ⟨w, hvb, h2b⟩ := squadLoop_query_docs items 0 [] b y hb
  have hva' : (squadSeenAfter [] items).lookup y.context = some v := by
    rw [← hxy]
    exact hva
  have hvw : w = v := by
    rw [hva'] at hvb
    exact (Option.some.injEq _ _).mp hvb.symm
  subst hvw
  constructor
  · show ((squadLoop 0 [] items).1.map (fun q => q.relevantDocs))[a]?
      = ((squadLoop 0 [] items).1.map (fun q => q.relevantDocs))[b]?
    rw [h2a, h2b]
  · have hmem : x.context ∈ (squad_transform items).2.map (fun d => d.content) := by
      rw [squad_corpus_contents_eq]
      exact lookup_some_mem_fst hva
    have hcnt := filter_content_length_eq_count (squad_transform items).2 x.context
    rw [hcnt]
    exact List.count_eq_one_of_mem (squad_corpus_contents_nodup items) hmem

/-- Witness for C2: two squad records sharing the context `"c"`. -/
theorem claim_C2_witness :
    (((squad_transform [⟨"c", "q1", "t"⟩, ⟨"c", "q2", "t"⟩]).1.map
        (fun q => q.relevantDocs))[0]?
      = ((squad_transform [⟨"c", "q1", "t"⟩, ⟨"c", "q2", "t"⟩]).1.map
          (fun q => q.relevantDocs))[1]?)
    ∧ ((squad_transform [⟨"c", "q1", "t"⟩, ⟨"c", "q2", "t"⟩]).2.filter
        (fun d => d.content == "c")).length = 1 :=
  claim_C2.1 [⟨"c", "q1", "t"⟩, ⟨"c", "q2", "t"⟩] 0 1 ⟨"c", "q1", "t"⟩ ⟨"c", "q2", "t"⟩
    (by decide) (by decide) rfl

/-- Claim C3 counterexample: a record whose `corpus-text` field is absent does
NOT abort the run — the adapter succeeds and substitutes the default content
`"Document nfcorpus-d1"`; and a record whose `corpus-id` field is absent is
silently skipped (no query, no document, no error). -/
theorem claim_C3_counterexample :
    nf_transform [⟨some "q0", some "d1", none⟩]
      = .ok ([nfQuery 0 "q0" "nfcorpus-d1"],
             [{ id := "nfcorpus-d1", content := "Document nfcorpus-d1",
                metadata := [("medical", MetaVal.bool true)] }])
    ∧ nf_transform [⟨some "q0", none, some "txt"⟩] = .ok ([], []) := by
  exact ⟨rfl, rfl⟩

/-- Claim C3 (amended): a record missing the `query` field aborts the dataset
run with a reported error, but a record missing `corpus-id` is silently
skipped, and a missing `corpus-text` is replaced by the default
`"Document {docId}"` rather than raising. -/
theorem claim_C3_amended :
    (∀ items : List NFItem, (∃ it ∈ items, it.query = none) →
      nf_transform items = .error ())
    ∧ (∀ (q : String) (t : Option String) (rest : List NFItem) (i : Nat)
        (seen : List String),
        nfLoop i seen ({ query := some q, corpusId := none, corpusText := t } :: rest)
          = nfLoop (i + 1) seen rest)
    ∧ (∀ q cid : String,
        nf_transform [⟨some q, some cid, none⟩]
          = .ok ([nfQuery 0 q ("nfcorpus-" ++ cid)],
                 [{ id := "nfcorpus-" ++ cid,
                    content := "Document " ++ ("nfcorpus-" ++ cid),
                    metadata := [("medical", MetaVal.bool true)] }])) := by
  refine ⟨?_, ?_, ?_⟩
  · intro items h
    obtain ⟨it, hit, hq⟩ := h
    exact nfLoop_error_of_missing_query items 0 [] it hit hq
  · intro q t rest i seen
    rfl
  · intro q cid
    rfl

/-- Witness for the amended C3 at concrete records. -/
theorem claim_C3_witness :
    nf_transform [⟨none, some "d", some "t"⟩] = .error ()
    ∧ nfLoop 0 [] [⟨some "qq", none, none⟩] = nfLoop 1 [] []
    ∧ nf_transform [⟨some "qq", some "dd", none⟩]
        = .ok ([nfQuery 0 "qq" "nfcorpus-dd"],
               [{ id := "nfcorpus-dd", content := "Document nfcorpus-dd",
                  metadata := [("medical", MetaVal.bool true)] }]) :=
  ⟨claim_C3_amended.1 [⟨none, some "d", some "t"⟩]
      ⟨⟨none, some "d", some "t"⟩, List.mem_singleton.mpr rfl, rfl⟩,
    claim_C3_amended.2.1 "qq" none [] 0 [],
    claim_C3_amended.2.2 "qq" "dd"⟩

/-- Claim C4 counterexample: with all four download adapters healthy but the
sample write failing, `main` aborts with an uncaught exception — no results
summary is produced and the remaining adapters' outcomes are never reported. -/
theorem claim_C4_counterexample :
    mainResults ⟨false, ⟨.ok [], true⟩, ⟨.ok [], true⟩, ⟨.ok [], true⟩, ⟨.ok [], true⟩⟩
      = .error () := rfl

/-- Claim C4 (amended): the four `download_*` adapters catch errors locally and
report booleans, and the summary always contains every adapter's entry, so one
download adapter's failure never blocks the others — but `create_sample_dataset`
does not catch: a failure there aborts the whole run before any download
adapter's result is reported. -/
theorem claim_C4_amended (env : MainEnv) :
    (env.sampleWriteOk = true →
      mainResults env = .ok [("sample", true),
        ("sts17", download_mteb_sts17 env.sts17),
        ("squad", download_squad_sample env.squad),
        ("quora", download_quora_sample env.quora),
        ("nfcorpus", download_nfcorpus_sample env.nfcorpus)])
    ∧ (env.sampleWriteOk = false → mainResults env = .error ()) :=
  ⟨mainResults_ok env, mainResults_error env⟩

/-- Witness for the amended C4: one adapter (sts17) fails, everything else
still runs and is reported. -/
theorem claim_C4_witness :
    mainResults ⟨true, ⟨.error (), true⟩, ⟨.ok [], true⟩, ⟨.ok [], true⟩, ⟨.ok [], true⟩⟩
      = .ok [("sample", true), ("sts17", false), ("squad", true),
             ("quora", true), ("nfcorpus", true)] :=
  (claim_C4_amended
    ⟨true, ⟨.error (), true⟩, ⟨.ok [], true⟩, ⟨.ok [], true⟩, ⟨.ok [], true⟩⟩).1 rfl

/-- Claim C5: for every emitted Query in every adapter's output, the list of
relevant document IDs and the list of relevance scores have equal length. -/
theorem claim_C5 :
    (∀ q ∈ sample_queries, q.relevantDocs.length = q.relevanceScores.length)
    ∧ (∀ items : List STSItem, ∀ q ∈ (sts17_transform items).1,
        q.relevantDocs.length = q.relevanceScores.length)
    ∧ (∀ items : List SquadItem, ∀ q ∈ (squad_transform items).1,
        q.relevantDocs.length = q.relevanceScores.length)
    ∧ (∀ items : List QuoraItem, ∀ q ∈ (quora_transform items).1,
        q.relevantDocs.length = q.relevanceScores.length)
    ∧ (∀ (items : List NFItem) (res : List Query × List Document),
        nf_transform items = .ok res → ∀ q ∈ res.1,
          q.relevantDocs.length = q.relevanceScores.length) := by
  refine ⟨by decide, ?_, ?_, ?_, ?_⟩
  · intro items q hq
    exact sts17Loop_alignment 0 items q hq
  · intro items q hq
    obtain ⟨d, hd, hs⟩ := squadLoop_query_shape items 0 [] q hq
    rw [hd, hs]
    rfl
  · intro items q hq
    obtain ⟨d, hd, hs⟩ := quoraLoop_query_shape items 0 [] q hq
    rw [hd, hs]
    rfl
  · intro items res h q hq
    obtain ⟨d, hd, hs⟩ := nfLoop_query_shape items 0 [] res h q hq
    rw [hd, hs]
    rfl

/-- Witness for C5 at concrete one-record inputs. -/
theorem claim_C5_witness :
    ((stsQuery 0 ⟨"a", "b", 5⟩).relevantDocs.length
      = (stsQuery 0 ⟨"a", "b", 5⟩).relevanceScores.length)
    ∧ ((nfQuery 0 "qq" "nfcorpus-zz").relevantDocs.length
      = (nfQuery 0 "qq" "nfcorpus-zz").relevanceScores.length) :=
  ⟨claim_C5.2.1 [⟨"a", "b", 5⟩] _ (List.mem_singleton.mpr rfl),
   claim_C5.2.2.2.2 [⟨some "qq", some "zz", some "tt"⟩]
     ([nfQuery 0 "qq" "nfcorpus-zz"],
      [{ id := "nfcorpus-zz", content := "tt", metadata := [("medical", MetaVal.bool true)] }])
     rfl _ (List.mem_singleton.mpr rfl)⟩

/-- Claim C6: a record whose relevance extraction yields zero pairs (nfcorpus:
no `corpus-id`; quora: not a duplicate) produces no Query entry, and no adapter
ever emits a Query with an empty relevant-document set. -/
theorem claim_C6 :
    (∀ (items : List NFItem) (res : List Query × List Document),
      nf_transform items = .ok res →
        res.1.length = (items.filter (fun it => it.corpusId.isSome)).length
        ∧ ∀ q ∈ res.1, q.relevantDocs ≠ [])
    ∧ (∀ items : List QuoraItem,
        (quora_transform items).1.length
          = (items.filter (fun it => it.is_duplicate)).length
        ∧ ∀ q ∈ (quora_transform items).1, q.relevantDocs ≠ [])
    ∧ (∀ items : List STSItem, ∀ q ∈ (sts17_transform items).1, q.relevantDocs ≠ [])
    ∧ (∀ items : List SquadItem, ∀ q ∈ (squad_transform items).1, q.relevantDocs ≠ [])
    ∧ (∀ q ∈ sample_queries, q.relevantDocs ≠ []) := by
  refine ⟨?_, ?_, ?_, ?_, by decide⟩
  · intro items res h
    refine ⟨nfLoop_queries_count items 0 [] res h, ?_⟩
    intro q hq
    obtain ⟨d, hd, -⟩ := nfLoop_query_shape items 0 [] res h q hq
    rw [hd]
    simp
  · intro items
    refine ⟨quoraLoop_queries_count items 0 [], ?_⟩
    intro q hq
    obtain ⟨d, hd, -⟩ := quoraLoop_query_shape items 0 [] q hq
    rw [hd]
    simp
  · intro items q hq
    exact sts17Loop_nonempty 0 items q hq
  · intro items q hq
    obtain ⟨d, hd, -⟩ := squadLoop_query_shape items 0 [] q hq
    rw [hd]
    simp

/-- Witness for C6: a non-duplicate quora record and a judgment-less nfcorpus
record each produce zero queries. -/
theorem claim_C6_witness :
    ((quora_transform [⟨"aa", "bb", false⟩]).1.length
      = (([⟨"aa", "bb", false⟩] : List QuoraItem).filter (fun it => it.is_duplicate)).length)
    ∧ (([] : List Query).length
      = (([⟨some "q", none, none⟩] : List NFItem).filter (fun it => it.corpusId.isSome)).length) :=
  ⟨(claim_C6.2.1 [⟨"aa", "bb", false⟩]).1,
   (claim_C6.1 [⟨some "q", none, none⟩] ([], []) rfl).1⟩

/-- Claim C7: given that `main` produced its summary, the process exit status
is 0 iff every adapter reported success, and 1 if any adapter failed. -/
theorem claim_C7 (env : MainEnv) (results : List (String × Bool))
    (h : mainResults env = .ok results) :
    (processExit env = 0 ↔ ∀ r ∈ results, r.2 = true)
    ∧ ((∃ r ∈ results, r.2 = false) → processExit env = 1) := by
  refine ⟨processExit_eq_zero_iff env results h, ?_⟩
  intro hex
  obtain ⟨r, hr, hfalse⟩ := hex
  have hne : ¬ ∀ s ∈ results, s.2 = true := by
    intro hall
    rw [hall r hr] at hfalse
    simp at hfalse
  unfold processExit
  rw [h]
  by_cases hc : (results.filter (fun s => s.2)).length = results.length
  · exfalso
    apply hne
    intro s hs
    have heq : results.filter (fun s => s.2) = results :=
      (List.filter_sublist _).eq_of_length hc
    have := List.filter_eq_self.mp heq s hs
    simpa using this
  · simp [hc]

/-- Witness for C7: the all-successful environment exits with status 0. -/
theorem claim_C7_witness :
    processExit ⟨true, ⟨.ok [], true⟩, ⟨.ok [], true⟩, ⟨.ok [], true⟩, ⟨.ok [], true⟩⟩ = 0 :=
  (claim_C7 ⟨true, ⟨.ok [], true⟩, ⟨.ok [], true⟩, ⟨.ok [], true⟩, ⟨.ok [], true⟩⟩
    [("sample", true), ("sts17", true), ("squad", true), ("quora", true), ("nfcorpus", true)]
    rfl).1.mpr (by decide)

/-- Claim C8: within one output batch, all emitted Document IDs are pairwise
distinct and all emitted Query IDs are pairwise distinct, for every adapter. -/
theorem claim_C8 :
    (sample_queries.map (fun q => q.id)).Nodup
    ∧ (sample_corpus.map (fun d => d.id)).Nodup
    ∧ (∀ items : List STSItem,
        ((sts17_transform items).1.map (fun q => q.id)).Nodup
        ∧ ((sts17_transform items).2.map (fun d => d.id)).Nodup)
    ∧ (∀ items : List SquadItem,
        ((squad_transform items).1.map (fun q => q.id)).Nodup
        ∧ ((squad_transform items).2.map (fun d => d.id)).Nodup)
    ∧ (∀ items : List QuoraItem,
        ((quora_transform items).1.map (fun q => q.id)).Nodup
        ∧ ((quora_transform items).2.map (fun d => d.id)).Nodup)
    ∧ (∀ (items : List NFItem) (res : List Query × List Document),
        nf_transform items = .ok res →
          (res.1.map (fun q => q.id)).Nodup ∧ (res.2.map (fun d => d.id)).Nodup) := by
  refine ⟨by decide, by decide, ?_, ?_, ?_, ?_⟩
  · intro items
    constructor
    · show ((sts17Loop 0 items).1.map (fun q => q.id)).Nodup
      rw [sts17Loop_query_ids]
      exact nodup_mk_range "sts17-en-en-" 0 items.length
    · show ((sts17Loop 0 items).2.map (fun d => d.id)).Nodup
      rw [sts17Loop_doc_ids]
      exact nodup_mk_range "sts17-doc-" 0 items.length
  · intro items
    exact ⟨squad_query_ids_nodup items, squad_corpus_ids_nodup items⟩
  · intro items
    exact ⟨quora_query_ids_nodup items, quora_corpus_ids_nodup items⟩
  · intro items res h
    exact ⟨nf_query_ids_nodup items res h, nf_corpus_ids_nodup items res h⟩

/-- Witness for C8 at concrete inputs (including a squad batch with a repeated
context). -/
theorem claim_C8_witness :
    ((squad_transform [⟨"c1", "q", "t"⟩, ⟨"c1", "q2", "t"⟩]).2.map (fun d => d.id)).Nodup
    ∧ (([nfQuery 0 "qq" "nfcorpus-d"] : List Query).map (fun q => q.id)).Nodup :=
  ⟨(claim_C8.2.2.2.1 [⟨"c1", "q", "t"⟩, ⟨"c1", "q2", "t"⟩]).2,
   (claim_C8.2.2.2.2.2 [⟨some "qq", some "d", some "tt"⟩]
     ([nfQuery 0 "qq" "nfcorpus-d"],
      [{ id := "nfcorpus-d", content := "tt", metadata := [("medical", MetaVal.bool true)] }])
     rfl).1⟩

/-- Claim C9: the divide-by-5 normalizer used by the STS-17 adapter maps 5 to
exactly 1, 0 to exactly 0, maps all of [0,5] into [0,1], and is exactly the
score transformation applied to each emitted query. -/
theorem claim_C9 :
    stsScoreNormalizer 5 = 1 ∧ stsScoreNormalizer 0 = 0
    ∧ (∀ x : ℚ, 0 ≤ x → x ≤ 5 → 0 ≤ stsScoreNormalizer x ∧ stsScoreNormalizer x ≤ 1)
    ∧ (∀ (i : Nat) (item : STSItem),
        (stsQuery i item).relevanceScores = [stsScoreNormalizer item.score]) := by
  refine ⟨by norm_num [stsScoreNormalizer], by norm_num [stsScoreNormalizer], ?_,
    fun i item => rfl⟩
  intro x h0 h5
  constructor
  · show (0 : ℚ) ≤ x / 5
    exact div_nonneg h0 (by norm_num)
  · show x / 5 ≤ (1 : ℚ)
    rw [div_le_one (by norm_num : (0 : ℚ) < 5)]
    exact h5

/-- Witness for C9 at the raw score 3. -/
theorem claim_C9_witness :
    0 ≤ stsScoreNormalizer 3 ∧ stsScoreNormalizer 3 ≤ 1 :=
  claim_C9.2.2.1 3 (by norm_num) (by norm_num)

/-- Claim C10: the STS-17 adapter performs no deduplication: the record at
position i appends exactly one Document with ID "sts17-doc-{i}" and exactly
one Query whose relevantDocs is that single ID, queries and corpus always have
equal length, and document IDs are pairwise distinct even when sentence2 texts
repeat. -/
theorem claim_C10 (items : List STSItem) :
    (sts17_transform items).1.length = items.length
    ∧ (sts17_transform items).2.length = items.length
    ∧ (∀ (j : Nat) (item : STSItem), items[j]? = some item →
        ((sts17_transform items).2)[j]? = some (stsDoc j item)
        ∧ ((sts17_transform items).1)[j]? = some (stsQuery j item)
        ∧ (stsQuery j item).relevantDocs = [(stsDoc j item).id])
    ∧ ((sts17_transform items).2.map (fun d => d.id)).Nodup := by
  refine ⟨sts17Loop_queries_length 0 items, sts17Loop_corpus_length 0 items, ?_, ?_⟩
  · intro j item hj
    refine ⟨?_, ?_, rfl⟩
    · show ((sts17Loop 0 items).2)[j]? = some (stsDoc j item)
      rw [sts17Loop_eq]
      simp [List.getElem?_map, List.getElem?_enumFrom, hj]
    · show ((sts17Loop 0 items).1)[j]? = some (stsQuery j item)
      rw [sts17Loop_eq]
      simp [List.getElem?_map, List.getElem?_enumFrom, hj]
  · show ((sts17Loop 0 items).2.map (fun d => d.id)).Nodup
    rw [sts17Loop_doc_ids]
    exact nodup_mk_range "sts17-doc-" 0 items.length

/-- Witness for C10: two records with identical sentence2 texts. -/
theorem claim_C10_witness :
    (sts17_transform [⟨"a", "b", 5⟩, ⟨"c", "b", 3⟩]).1.length = 2
    ∧ ((sts17_transform [⟨"a", "b", 5⟩, ⟨"c", "b", 3⟩]).2)[1]?
        = some (stsDoc 1 ⟨"c", "b", 3⟩)
    ∧ ((sts17_transform [⟨"a", "b", 5⟩, ⟨"c", "b", 3⟩]).2.map (fun d => d.id)).Nodup :=
  ⟨(claim_C10 [⟨"a", "b", 5⟩, ⟨"c", "b", 3⟩]).1,
   ((claim_C10 [⟨"a", "b", 5⟩, ⟨"c", "b", 3⟩]).2.2.1 1 ⟨"c", "b", 3⟩ (by decide)).1,
   (claim_C10 [⟨"a", "b", 5⟩, ⟨"c", "b", 3⟩]).2.2.2⟩

end EmbedEval
